import Mathlib

/-!
Verification of the recursive tree-matrix generator
(`estimateMaxInstances`, `collectBranchDataRecursive`, `generateTreeMatrices`).

Matrices and quaternions are embedded symbolically: every constructor records
the exact rational parameters the source passes to the corresponding
THREE.js call.  Angles that the source measures in radians are stored in
units of π (the factor π is irrational and is kept symbolic), which is
lossless because every construction site multiplies a rational by π.
The process-wide `Math.random()` source is modelled as an explicit stream
`rho : ℕ → ℚ`; draw `n` of the run is `rho n`, and a counter `k` in the
state records how many draws have been consumed so far.
-/

namespace TreeGen

/-- Symbolic quaternion, mirroring the THREE.Quaternion constructions used by
the source.  `setFromEulerXYZ x y z` records an intrinsic XYZ Euler rotation
whose angles are `x·π`, `y·π`, `z·π` radians; the source builds it as
`new THREE.Quaternion().setFromEuler(new THREE.Euler(r1*π, r2*π*2, r3*π))`,
so the call sites pass `(r1, r2*2, r3)`.  `setFromAxisAngle ax ay az a`
records rotation about axis `(ax,ay,az)` by `a·π` radians.  `mul a b` is
`new THREE.Quaternion().multiplyQuaternions(a, b)`. -/
inductive Quat where
  | setFromEulerXYZ (x y z : ℚ)
  | setFromAxisAngle (ax ay az a : ℚ)
  | mul (a b : Quat)
deriving DecidableEq

/-- Symbolic 4×4 matrix, mirroring the THREE.Matrix4 constructions used by
the source.  `identity` is `new THREE.Matrix4()`; `mul a b` is the product
`a * b` (both `a.multiply(b)` and `multiplyMatrices(a, b)` in THREE). -/
inductive M4 where
  | identity
  | makeScale (x y z : ℚ)
  | makeTranslation (x y z : ℚ)
  | makeRotationFromQuaternion (q : Quat)
  | mul (a b : M4)
deriving DecidableEq

/-- THREE.MathUtils.degToRad with the factor π kept symbolic: the result is
the angle expressed in units of π radians (`deg·π/180` radians). -/
def degToRad (deg : ℚ) : ℚ :=
  deg / 180

/-- The configuration record consumed by the generator.  Absent fields are
`none`; the source applies per-field defaults (`??` in the recursion and the
facade, `||` in the estimator). -/
structure Config where
  maxDepth : Option ℕ
  minRadius : Option ℚ
  numBranches : Option ℕ
  lengthFactor : Option ℚ
  radiusFactor : Option ℚ
  branchAngle : Option ℚ
  angleVariance : Option ℚ
  lengthVariance : Option ℚ
  leafSize : Option ℚ
  initialLength : Option ℚ
  initialRadius : Option ℚ
deriving DecidableEq

/-- JS `x || d` on a numeric field: the default also replaces an explicit `0`
(`0` is falsy in JS), unlike `x ?? d` which replaces only a missing value. -/
def orDefault (x : Option ℕ) (d : ℕ) : ℕ :=
  match x with
  | none => d
  | some v => if v = 0 then d else v

/-- `estimateMaxInstances(config, estimateFactor = 1.5)` from the source,
with the default `estimateFactor = 1.5` inlined (the repository never passes
another value): `count = Σ_{i=0..depth} branches^i` accumulated by the
`for` loop, then `Math.ceil(count * estimateFactor * 1.5)`.  Note the source
reads `config.maxDepth || 5` and `config.numBranches || 2` here (JS `||`). -/
def estimateMaxInstances (config : Config) : ℕ :=
  let depth := orDefault config.maxDepth 5
  let branches := orDefault config.numBranches 2
  let count := (List.range (depth + 1)).foldl (fun c i => c + branches ^ i) 0
  (Int.ceil ((count : ℚ) * (3/2) * (3/2))).toNat

/-- Mutable generation state: the two output arrays (appended at the tail,
as JS `push`) and the number of random draws consumed so far. -/
structure St where
  branches : List M4
  leaves : List M4
  k : ℕ
deriving DecidableEq

/-- The body of the `for (let i = 0; i < numBranches; i++)` child loop of
`collectBranchDataRecursive`, with the recursive call abstracted as `recur`
(the caller passes the recursion at one less fuel).  `rem` counts the
remaining iterations (`numBranches - i`) and `i` is the loop index.  The
loop `break` on the instance limit is the early `return s`. -/
def childLoop (rho : ℕ → ℚ) (est : ℕ)
    (branchAngle angleVariance lengthVariance : ℚ)
    (childBaseMatrix : M4) (baseNextLength baseNextRadius angleStep : ℚ)
    (recur : M4 → ℚ → ℚ → St → St) :
    ℕ → ℕ → St → St
  | 0, _, s => s
  | rem + 1, i, s =>
    if s.branches.length ≥ est ∨ s.leaves.length + 1 ≥ est then s
    else
      let lenVarFactor := 1 + (rho s.k - 1/2) * 2 * (lengthVariance / 100)
      let angleVar := (rho (s.k + 1) - 1/2) * 2 * angleVariance
      let spreadVar := (rho (s.k + 2) - 1/2) * (angleStep * (2/5))
      let nextLength := baseNextLength * lenVarFactor
      let nextRadius := baseNextRadius
      let branchAngleDeg := branchAngle + angleVar
      let baseSpreadAngleDeg := angleStep * (i : ℚ)
      let spreadAngleDeg := baseSpreadAngleDeg + spreadVar
      let branchAngleRad := degToRad branchAngleDeg
      let spreadAngleRad := degToRad spreadAngleDeg
      let qSpread := Quat.setFromAxisAngle 0 1 0 spreadAngleRad
      let qBranch := Quat.setFromAxisAngle 1 0 0 branchAngleRad
      let orientationQuat := Quat.mul qSpread qBranch
      let rotationMatrix := M4.makeRotationFromQuaternion orientationQuat
      let nextParentMatrix := M4.mul childBaseMatrix rotationMatrix
      let s2 := recur nextParentMatrix nextLength nextRadius
        { s with k := s.k + 3 }
      childLoop rho est branchAngle angleVariance lengthVariance
        childBaseMatrix baseNextLength baseNextRadius angleStep recur
        rem (i + 1) s2

/-- `collectBranchDataRecursive` from the source.  The JS recursion has no
explicit depth bound beyond its guards; `fuel` is the embedding's structural
bound, shown fuel-irrelevant once `fuel > maxDepth - level` (the recursion
stops at `level ≥ maxDepth`), and the facade passes `maxDepth + 1`. -/
def collect (rho : ℕ → ℚ) (config : Config) (est : ℕ) :
    ℕ → ℕ → M4 → ℚ → ℚ → St → St
  | 0, _, _, _, _, s => s
  | fuel + 1, level, parentMatrix, length, radius, s =>
    let maxDepth := config.maxDepth.getD 5
    let minRadius := config.minRadius.getD (1/10)
    let numBranches := config.numBranches.getD 2
    let lengthFactor := config.lengthFactor.getD (7/10)
    let radiusFactor := config.radiusFactor.getD (3/5)
    let branchAngle := config.branchAngle.getD 30
    let angleVariance := config.angleVariance.getD 10
    let lengthVariance := config.lengthVariance.getD 10
    let leafSize := config.leafSize.getD (1/2)
    if (level ≥ maxDepth ∨ length ≤ 1/100 ∨ radius < minRadius) ∨
        (s.branches.length ≥ est ∨ s.leaves.length + 1 ≥ est) then
      if (level ≥ maxDepth ∨ length ≤ 1/100 ∨ radius < minRadius) ∧
          0 < level then
        if s.leaves.length + 1 < est then
          let scale := leafSize
          let scaleMatrix := M4.makeScale scale scale scale
          let randomQuatBase :=
            Quat.setFromEulerXYZ (rho s.k) (rho (s.k + 1) * 2) (rho (s.k + 2))
          let rotationMatrixBase := M4.makeRotationFromQuaternion randomQuatBase
          let leafMatrixBase :=
            M4.mul (M4.mul (M4.mul M4.identity parentMatrix)
              rotationMatrixBase) scaleMatrix
          let endPointTranslation := M4.makeTranslation 0 length 0
          let tipMatrix := M4.mul parentMatrix endPointTranslation
          let randomQuatTip :=
            Quat.setFromEulerXYZ (rho (s.k + 3)) (rho (s.k + 4) * 2)
              (rho (s.k + 5))
          let rotationMatrixTip := M4.makeRotationFromQuaternion randomQuatTip
          let leafMatrixTip :=
            M4.mul (M4.mul (M4.mul M4.identity tipMatrix)
              rotationMatrixTip) scaleMatrix
          { s with leaves := s.leaves ++ [leafMatrixBase, leafMatrixTip],
                   k := s.k + 6 }
        else s
      else s
    else
      let actualRadius := max radius minRadius
      let scaleMatrixBranch :=
        M4.makeScale (actualRadius * 2) length (actualRadius * 2)
      let translationMatrixBranch := M4.makeTranslation 0 (length / 2) 0
      let localMatrix := M4.mul translationMatrixBranch scaleMatrixBranch
      let worldMatrix := M4.mul parentMatrix localMatrix
      let s1 : St := { s with branches := s.branches ++ [worldMatrix] }
      let nextLevel := level + 1
      let baseNextLength := length * lengthFactor
      let baseNextRadius := actualRadius * radiusFactor
      let endPointTranslationChild := M4.makeTranslation 0 length 0
      let childBaseMatrix := M4.mul parentMatrix endPointTranslationChild
      let angleStep : ℚ := if numBranches > 1 then 360 / (numBranches : ℚ) else 0
      childLoop rho est branchAngle angleVariance lengthVariance
        childBaseMatrix baseNextLength baseNextRadius angleStep
        (fun pm l r st => collect rho config est fuel nextLevel pm l r st)
        numBranches 0 s1

/-- `generateTreeMatrices(config)` from the source: returns two empty arrays
on a missing (`null`) configuration, otherwise runs the recursion from
`level 0`, identity parent matrix, `initialLength ?? 10` and
`initialRadius ?? initialLength/15`, with the budget from the estimator.
The recursion fuel is `maxDepth + 1`, which is enough (see the
fuel-irrelevance theorem); the JS function is total up to stack space. -/
def generateTreeMatrices (rho : ℕ → ℚ) (config : Option Config) :
    List M4 × List M4 :=
  match config with
  | none => ([], [])
  | some cfg =>
    let estimatedMax := estimateMaxInstances cfg
    let initialLength := cfg.initialLength.getD 10
    let initialRadius := cfg.initialRadius.getD (initialLength / 15)
    let out := collect rho cfg estimatedMax (cfg.maxDepth.getD 5 + 1) 0
      M4.identity initialLength initialRadius ⟨[], [], 0⟩
    (out.branches, out.leaves)

/-- Ghost-instrumented branch record: the world matrix pushed to
`branchMatricesArray` together with the `level`, `length` and `radius`
arguments of the call that pushed it.  Used to state structural claims
("emitted at level …"); `collectL_proj` shows the instrumented recursion
projects onto the source-faithful one. -/
structure BRec where
  level : ℕ
  len : ℚ
  rad : ℚ
  m : M4
deriving DecidableEq

/-- Ghost-instrumented leaf record: the matrix pushed to
`leafMatricesArray` together with the `level` of the call that pushed it. -/
structure LRec where
  level : ℕ
  m : M4
deriving DecidableEq

/-- Instrumented generation state. -/
structure StL where
  branches : List BRec
  leaves : List LRec
  k : ℕ
deriving DecidableEq

/-- Forget the instrumentation, keeping only the matrices. -/
def projSt (s : StL) : St :=
  ⟨s.branches.map BRec.m, s.leaves.map LRec.m, s.k⟩

/-- Wrap a plain state with dummy instrumentation (level 0, zero sizes);
a section for `projSt` (`projSt_liftSt`). -/
def liftSt (s : St) : StL :=
  ⟨s.branches.map (fun m => ⟨0, 0, 0, m⟩), s.leaves.map (fun m => ⟨0, m⟩), s.k⟩

/-- Instrumented copy of `childLoop`: identical control flow and draws, over
the instrumented state. -/
def childLoopL (rho : ℕ → ℚ) (est : ℕ)
    (branchAngle angleVariance lengthVariance : ℚ)
    (childBaseMatrix : M4) (baseNextLength baseNextRadius angleStep : ℚ)
    (recur : M4 → ℚ → ℚ → StL → StL) :
    ℕ → ℕ → StL → StL
  | 0, _, s => s
  | rem + 1, i, s =>
    if s.branches.length ≥ est ∨ s.leaves.length + 1 ≥ est then s
    else
      let lenVarFactor := 1 + (rho s.k - 1/2) * 2 * (lengthVariance / 100)
      let angleVar := (rho (s.k + 1) - 1/2) * 2 * angleVariance
      let spreadVar := (rho (s.k + 2) - 1/2) * (angleStep * (2/5))
      let nextLength := baseNextLength * lenVarFactor
      let nextRadius := baseNextRadius
      let branchAngleDeg := branchAngle + angleVar
      let baseSpreadAngleDeg := angleStep * (i : ℚ)
      let spreadAngleDeg := baseSpreadAngleDeg + spreadVar
      let branchAngleRad := degToRad branchAngleDeg
      let spreadAngleRad := degToRad spreadAngleDeg
      let qSpread := Quat.setFromAxisAngle 0 1 0 spreadAngleRad
      let qBranch := Quat.setFromAxisAngle 1 0 0 branchAngleRad
      let orientationQuat := Quat.mul qSpread qBranch
      let rotationMatrix := M4.makeRotationFromQuaternion orientationQuat
      let nextParentMatrix := M4.mul childBaseMatrix rotationMatrix
      let s2 := recur nextParentMatrix nextLength nextRadius
        { s with k := s.k + 3 }
      childLoopL rho est branchAngle angleVariance lengthVariance
        childBaseMatrix baseNextLength baseNextRadius angleStep recur
        rem (i + 1) s2

/-- Instrumented copy of `collect`: identical control flow and matrices, but
every pushed matrix carries the emitting call's arguments. -/
def collectL (rho : ℕ → ℚ) (config : Config) (est : ℕ) :
    ℕ → ℕ → M4 → ℚ → ℚ → StL → StL
  | 0, _, _, _, _, s => s
  | fuel + 1, level, parentMatrix, length, radius, s =>
    let maxDepth := config.maxDepth.getD 5
    let minRadius := config.minRadius.getD (1/10)
    let numBranches := config.numBranches.getD 2
    let lengthFactor := config.lengthFactor.getD (7/10)
    let radiusFactor := config.radiusFactor.getD (3/5)
    let branchAngle := config.branchAngle.getD 30
    let angleVariance := config.angleVariance.getD 10
    let lengthVariance := config.lengthVariance.getD 10
    let leafSize := config.leafSize.getD (1/2)
    if (level ≥ maxDepth ∨ length ≤ 1/100 ∨ radius < minRadius) ∨
        (s.branches.length ≥ est ∨ s.leaves.length + 1 ≥ est) then
      if (level ≥ maxDepth ∨ length ≤ 1/100 ∨ radius < minRadius) ∧
          0 < level then
        if s.leaves.length + 1 < est then
          let scale := leafSize
          let scaleMatrix := M4.makeScale scale scale scale
          let randomQuatBase :=
            Quat.setFromEulerXYZ (rho s.k) (rho (s.k + 1) * 2) (rho (s.k + 2))
          let rotationMatrixBase := M4.makeRotationFromQuaternion randomQuatBase
          let leafMatrixBase :=
            M4.mul (M4.mul (M4.mul M4.identity parentMatrix)
              rotationMatrixBase) scaleMatrix
          let endPointTranslation := M4.makeTranslation 0 length 0
          let tipMatrix := M4.mul parentMatrix endPointTranslation
          let randomQuatTip :=
            Quat.setFromEulerXYZ (rho (s.k + 3)) (rho (s.k + 4) * 2)
              (rho (s.k + 5))
          let rotationMatrixTip := M4.makeRotationFromQuaternion randomQuatTip
          let leafMatrixTip :=
            M4.mul (M4.mul (M4.mul M4.identity tipMatrix)
              rotationMatrixTip) scaleMatrix
          let recBase : LRec := ⟨level, leafMatrixBase⟩
          let recTip : LRec := ⟨level, leafMatrixTip⟩
          { s with leaves := s.leaves ++ [recBase, recTip],
                   k := s.k + 6 }
        else s
      else s
    else
      let actualRadius := max radius minRadius
      let scaleMatrixBranch :=
        M4.makeScale (actualRadius * 2) length (actualRadius * 2)
      let translationMatrixBranch := M4.makeTranslation 0 (length / 2) 0
      let localMatrix := M4.mul translationMatrixBranch scaleMatrixBranch
      let worldMatrix := M4.mul parentMatrix localMatrix
      let recBranch : BRec := ⟨level, length, radius, worldMatrix⟩
      let s1 : StL := { s with branches := s.branches ++ [recBranch] }
      let nextLevel := level + 1
      let baseNextLength := length * lengthFactor
      let baseNextRadius := actualRadius * radiusFactor
      let endPointTranslationChild := M4.makeTranslation 0 length 0
      let childBaseMatrix := M4.mul parentMatrix endPointTranslationChild
      let angleStep : ℚ := if numBranches > 1 then 360 / (numBranches : ℚ) else 0
      childLoopL rho est branchAngle angleVariance lengthVariance
        childBaseMatrix baseNextLength baseNextRadius angleStep
        (fun pm l r st => collectL rho config est fuel nextLevel pm l r st)
        numBranches 0 s1

/-- Instrumented copy of `generateTreeMatrices` on a present configuration:
same budget, fuel and starting arguments, returning the full instrumented
state. -/
def generateTreeL (rho : ℕ → ℚ) (cfg : Config) : StL :=
  let estimatedMax := estimateMaxInstances cfg
  let initialLength := cfg.initialLength.getD 10
  let initialRadius := cfg.initialRadius.getD (initialLength / 15)
  collectL rho cfg estimatedMax (cfg.maxDepth.getD 5 + 1) 0
    M4.identity initialLength initialRadius ⟨[], [], 0⟩

/-- The estimator contract as the specification words it: given the
(defaulted) `maxDepth` and `numBranches`, return
`ceil((Σ_{i=0..maxDepth} numBranches^i) * 1.5 * 1.5)`.  Stated from the
spec, to be compared with `estimateMaxInstances` from the source. -/
def specEstimate (maxDepth numBranches : ℕ) : ℕ :=
  (Int.ceil ((∑ i ∈ Finset.range (maxDepth + 1), (numBranches : ℚ) ^ i) *
    (3/2) * (3/2))).toNat

/-- The depth-1 example configuration from the specification's §8. -/
def cfgDepth1 : Config :=
  { maxDepth := some 1, minRadius := some (1/10), numBranches := some 2,
    lengthFactor := some (7/10), radiusFactor := some (3/5),
    branchAngle := some 30, angleVariance := some 0,
    lengthVariance := some 0, leafSize := none,
    initialLength := some 10, initialRadius := some (7/10) }

/-- A configuration with an explicit `maxDepth` of `0` (a present, falsy
field): the estimator's `config.maxDepth || 5` replaces it by `5`. -/
def cfgZeroDepth : Config :=
  { maxDepth := some 0, minRadius := none, numBranches := some 2,
    lengthFactor := none, radiusFactor := none, branchAngle := none,
    angleVariance := none, lengthVariance := none, leafSize := none,
    initialLength := none, initialRadius := none }

/-- Like `cfgZeroDepth` but with `maxDepth = 1`. -/
def cfgOneDepth : Config :=
  { maxDepth := some 1, minRadius := none, numBranches := some 2,
    lengthFactor := none, radiusFactor := none, branchAngle := none,
    angleVariance := none, lengthVariance := none, leafSize := none,
    initialLength := none, initialRadius := none }

/-- Like `cfgZeroDepth` but with `maxDepth = 2`. -/
def cfgTwoDepth : Config :=
  { maxDepth := some 2, minRadius := none, numBranches := some 2,
    lengthFactor := none, radiusFactor := none, branchAngle := none,
    angleVariance := none, lengthVariance := none, leafSize := none,
    initialLength := none, initialRadius := none }

/-- The pinned random source from the specification's determinism property:
every draw returns `0.5`. -/
def rhoHalf : ℕ → ℚ := fun _ => 1/2

/-- The instrumented record of the root branch segment emitted by the
depth-1 example run: level `0`, length `10`, radius `0.7`, and the world
matrix `parent · (translate(0, length/2, 0) · scale(2r, length, 2r))`. -/
def brecRoot : BRec :=
  ⟨0, 10, 7/10,
   M4.mul M4.identity
     (M4.mul (M4.makeTranslation 0 5 0) (M4.makeScale (7/5) 10 (7/5)))⟩

/-!
Helper lemmas: the instrumented recursion projects onto the source-faithful
one, a generic append-only invariant principle for the recursion, loop
congruence, and fuel stability.
-/

theorem projSt_branches (s : StL) :
    (projSt s).branches = s.branches.map BRec.m := rfl

theorem projSt_leaves (s : StL) :
    (projSt s).leaves = s.leaves.map LRec.m := rfl

theorem projSt_k (s : StL) : (projSt s).k = s.k := rfl

theorem childLoopL_proj (rho : ℕ → ℚ) (est : ℕ)
    (bA aV lV : ℚ) (cbm : M4) (bnl bnr aS : ℚ)
    (recurL : M4 → ℚ → ℚ → StL → StL) (recur : M4 → ℚ → ℚ → St → St)
    (hrec : ∀ pm l r sL, projSt (recurL pm l r sL) = recur pm l r (projSt sL)) :
    ∀ (rem i : ℕ) (sL : StL),
      projSt (childLoopL rho est bA aV lV cbm bnl bnr aS recurL rem i sL) =
        childLoop rho est bA aV lV cbm bnl bnr aS recur rem i (projSt sL) := by
  intro rem
  induction rem with
  | zero => intro i sL; rfl
  | succ n ih =>
    intro i sL
    rw [childLoopL, childLoop]
    simp only [projSt_branches, projSt_leaves, projSt_k, List.length_map]
    by_cases h : sL.branches.length ≥ est ∨ sL.leaves.length + 1 ≥ est
    · rw [if_pos h, if_pos h]
    · rw [if_neg h, if_neg h]
      rw [ih, hrec]
      rfl

theorem collectL_proj (rho : ℕ → ℚ) (config : Config) (est : ℕ) :
    ∀ (fuel level : ℕ) (pm : M4) (len rad : ℚ) (sL : StL),
      projSt (collectL rho config est fuel level pm len rad sL) =
        collect rho config est fuel level pm len rad (projSt sL) := by
  intro fuel
  induction fuel with
  | zero => intro level pm len rad sL; rfl
  | succ n ih =>
    intro level pm len rad sL
    rw [collectL, collect]
    simp only [projSt_branches, projSt_leaves, projSt_k, List.length_map]
    by_cases h1 : (level ≥ config.maxDepth.getD 5 ∨ len ≤ 1/100 ∨
        rad < config.minRadius.getD (1/10)) ∨
        (sL.branches.length ≥ est ∨ sL.leaves.length + 1 ≥ est)
    · rw [if_pos h1, if_pos h1]
      by_cases h2 : (level ≥ config.maxDepth.getD 5 ∨ len ≤ 1/100 ∨
          rad < config.minRadius.getD (1/10)) ∧ 0 < level
      · rw [if_pos h2, if_pos h2]
        by_cases h3 : sL.leaves.length + 1 < est
        · rw [if_pos h3, if_pos h3]
          simp [projSt, List.map_append]
        · rw [if_neg h3, if_neg h3]
      · rw [if_neg h2, if_neg h2]
    · rw [if_neg h1, if_neg h1]
      refine (childLoopL_proj rho est _ _ _ _ _ _ _
        (fun pm l r st => collectL rho config est n (level + 1) pm l r st)
        (fun pm l r st => collect rho config est n (level + 1) pm l r st)
        (fun pm l r sL => ih (level + 1) pm l r sL) _ _ _).trans ?_
      congr 1
      simp [projSt, List.map_append]

theorem projSt_liftSt (s : St) : projSt (liftSt s) = s := by
  cases s
  simp [projSt, liftSt, List.map_map, Function.comp_def]

theorem childLoopL_inv (est : ℕ) (P : List BRec → List LRec → Prop)
    (recurL : M4 → ℚ → ℚ → StL → StL)
    (hrec : ∀ pm l r sL, P sL.branches sL.leaves →
      P (recurL pm l r sL).branches (recurL pm l r sL).leaves)
    (rho : ℕ → ℚ) (bA aV lV : ℚ) (cbm : M4) (bnl bnr aS : ℚ) :
    ∀ (rem i : ℕ) (sL : StL), P sL.branches sL.leaves →
      P (childLoopL rho est bA aV lV cbm bnl bnr aS recurL rem i sL).branches
        (childLoopL rho est bA aV lV cbm bnl bnr aS recurL rem i sL).leaves := by
  intro rem
  induction rem with
  | zero => intro i sL h; exact h
  | succ n ih =>
    intro i sL h
    rw [childLoopL]
    split
    · exact h
    · exact ih _ _ (hrec _ _ _ _ h)

theorem collectL_inv (rho : ℕ → ℚ) (config : Config) (est : ℕ)
    (P : List BRec → List LRec → Prop)
    (hleaf : ∀ (level : ℕ) (m1 m2 : M4) (br : List BRec) (lv : List LRec),
      P br lv → lv.length + 1 < est → 0 < level →
      P br (lv ++ [⟨level, m1⟩, ⟨level, m2⟩]))
    (hbranch : ∀ (level : ℕ) (len rad : ℚ) (m : M4) (br : List BRec)
      (lv : List LRec), P br lv → br.length < est → lv.length + 1 < est →
      level < config.maxDepth.getD 5 → (1/100 : ℚ) < len →
      config.minRadius.getD (1/10) ≤ rad →
      P (br ++ [⟨level, len, rad, m⟩]) lv) :
    ∀ (fuel level : ℕ) (pm : M4) (len rad : ℚ) (sL : StL),
      P sL.branches sL.leaves →
      P (collectL rho config est fuel level pm len rad sL).branches
        (collectL rho config est fuel level pm len rad sL).leaves := by
  intro fuel
  induction fuel with
  | zero => intro level pm len rad sL h; exact h
  | succ n ih =>
    intro level pm len rad sL h
    rw [collectL]
    simp only []
    split
    · rename_i h1
      split
      · rename_i h2
        split
        · rename_i h3
          exact hleaf level _ _ _ _ h h3 h2.2
        · exact h
      · exact h
    · rename_i h1
      push_neg at h1
      apply childLoopL_inv est P _
        (fun pm' l r sL' h' => ih (level + 1) pm' l r sL' h')
      exact hbranch level len rad _ _ _ h h1.2.1 h1.2.2 h1.1.1 h1.1.2.1
        h1.1.2.2

theorem childLoop_congr (rho : ℕ → ℚ) (est : ℕ) (bA aV lV : ℚ) (cbm : M4)
    (bnl bnr aS : ℚ) (recur1 recur2 : M4 → ℚ → ℚ → St → St)
    (hrec : ∀ pm l r s, recur1 pm l r s = recur2 pm l r s) :
    ∀ (rem i : ℕ) (s : St),
      childLoop rho est bA aV lV cbm bnl bnr aS recur1 rem i s =
        childLoop rho est bA aV lV cbm bnl bnr aS recur2 rem i s := by
  intro rem
  induction rem with
  | zero => intro i s; rfl
  | succ n ih =>
    intro i s
    simp only [childLoop]
    by_cases hc : s.branches.length ≥ est ∨ s.leaves.length + 1 ≥ est
    · rw [if_pos hc, if_pos hc]
    · rw [if_neg hc, if_neg hc, hrec, ih]

theorem collect_fuel_stable_aux (rho : ℕ → ℚ) (config : Config) (est : ℕ) :
    ∀ (f g level : ℕ) (pm : M4) (len rad : ℚ) (s : St),
      config.maxDepth.getD 5 - level < f → config.maxDepth.getD 5 - level < g →
      collect rho config est f level pm len rad s =
        collect rho config est g level pm len rad s := by
  intro f
  induction f with
  | zero => intro g level pm len rad s hf hg; exact absurd hf (by omega)
  | succ n ih =>
    intro g level pm len rad s hf hg
    obtain ⟨m, rfl⟩ : ∃ m, g = m + 1 := ⟨g - 1, by omega⟩
    simp only [collect]
    by_cases h1 : (level ≥ config.maxDepth.getD 5 ∨ len ≤ 1/100 ∨
        rad < config.minRadius.getD (1/10)) ∨
        (s.branches.length ≥ est ∨ s.leaves.length + 1 ≥ est)
    · rw [if_pos h1, if_pos h1]
    · rw [if_neg h1, if_neg h1]
      have hlev : level < config.maxDepth.getD 5 := by
        push_neg at h1
        exact h1.1.1
      apply childLoop_congr
      intro pm' l r s'
      apply ih <;> omega

theorem generateTreeMatrices_eq_proj (rho : ℕ → ℚ) (cfg : Config) :
    generateTreeMatrices rho (some cfg) =
      ((generateTreeL rho cfg).branches.map BRec.m,
       (generateTreeL rho cfg).leaves.map LRec.m) := by
  have h : projSt (generateTreeL rho cfg) =
      collect rho cfg (estimateMaxInstances cfg) (cfg.maxDepth.getD 5 + 1) 0
        M4.identity (cfg.initialLength.getD 10)
        (cfg.initialRadius.getD (cfg.initialLength.getD 10 / 15)) ⟨[], [], 0⟩ :=
    collectL_proj rho cfg _ _ _ _ _ _ _
  show ((collect rho cfg (estimateMaxInstances cfg) (cfg.maxDepth.getD 5 + 1) 0
        M4.identity (cfg.initialLength.getD 10)
        (cfg.initialRadius.getD (cfg.initialLength.getD 10 / 15))
        ⟨[], [], 0⟩).branches, (collect rho cfg (estimateMaxInstances cfg)
        (cfg.maxDepth.getD 5 + 1) 0 M4.identity (cfg.initialLength.getD 10)
        (cfg.initialRadius.getD (cfg.initialLength.getD 10 / 15))
        ⟨[], [], 0⟩).leaves) = _
  rw [← h]
  rfl

theorem budget_general (rho : ℕ → ℚ) (cfg : Config) (est : ℕ) :
    ∀ (fuel level : ℕ) (pm : M4) (len rad : ℚ) (s : St),
      s.branches.length ≤ est → s.leaves.length ≤ est →
      (collect rho cfg est fuel level pm len rad s).branches.length ≤ est ∧
      (collect rho cfg est fuel level pm len rad s).leaves.length ≤ est := by
  intro fuel level pm len rad s hb hl
  have hproj := collectL_proj rho cfg est fuel level pm len rad (liftSt s)
  rw [projSt_liftSt] at hproj
  have hinv := collectL_inv rho cfg est
    (fun br lv => br.length ≤ est ∧ lv.length ≤ est)
    (by
      intro level m1 m2 br lv h hlt hpos
      refine ⟨h.1, ?_⟩
      simp only [List.length_append, List.length_cons, List.length_nil]
      omega)
    (by
      intro level len rad m br lv h hbr hlv hle hgt hge
      refine ⟨?_, h.2⟩
      simp only [List.length_append, List.length_cons, List.length_nil]
      omega)
    fuel level pm len rad (liftSt s)
    (by constructor <;> simpa [liftSt])
  rw [← hproj]
  simpa [projSt] using hinv

theorem foldl_add_pow (b : ℕ) : ∀ (n : ℕ) (a : ℕ),
    (List.range n).foldl (fun c i => c + b ^ i) a =
      a + ∑ i ∈ Finset.range n, b ^ i := by
  intro n
  induction n with
  | zero => intro a; simp
  | succ m ih =>
    intro a
    rw [List.range_succ, List.foldl_append, ih, Finset.sum_range_succ]
    simp only [List.foldl_cons, List.foldl_nil]
    omega

/-!
Claim theorems.
-/

/-- C1.  For every configuration and every stream of random draws, the
result of `generateTreeMatrices` satisfies
`branchMatrices.length ≤ estimateMaxInstances config` and
`leafMatrices.length ≤ estimateMaxInstances config`; moreover (second
conjunct) the recursion preserves both bounds from any intermediate state,
so no append ever pushes an array past the estimated budget. -/
theorem claim_budget_bound (rho : ℕ → ℚ) (cfg : Config) :
    ((generateTreeMatrices rho (some cfg)).1.length ≤ estimateMaxInstances cfg ∧
     (generateTreeMatrices rho (some cfg)).2.length ≤ estimateMaxInstances cfg) ∧
    ∀ (fuel level : ℕ) (pm : M4) (len rad : ℚ) (s : St),
      s.branches.length ≤ estimateMaxInstances cfg →
      s.leaves.length ≤ estimateMaxInstances cfg →
      (collect rho cfg (estimateMaxInstances cfg) fuel level pm len
        rad s).branches.length ≤ estimateMaxInstances cfg ∧
      (collect rho cfg (estimateMaxInstances cfg) fuel level pm len
        rad s).leaves.length ≤ estimateMaxInstances cfg := by
  constructor
  · exact budget_general rho cfg (estimateMaxInstances cfg)
      (cfg.maxDepth.getD 5 + 1) 0 M4.identity (cfg.initialLength.getD 10)
      (cfg.initialRadius.getD (cfg.initialLength.getD 10 / 15)) ⟨[], [], 0⟩
      (Nat.zero_le _) (Nat.zero_le _)
  · intro fuel level pm len rad s hb hl
    exact budget_general rho cfg (estimateMaxInstances cfg) fuel level pm len
      rad s hb hl

/-- C1 witness: the bounds instantiated at the depth-1 example
configuration with the pinned random source. -/
theorem claim_budget_bound_witness :
    ((generateTreeMatrices rhoHalf (some cfgDepth1)).1.length ≤
       estimateMaxInstances cfgDepth1 ∧
     (generateTreeMatrices rhoHalf (some cfgDepth1)).2.length ≤
       estimateMaxInstances cfgDepth1) ∧
    ((collect rhoHalf cfgDepth1 (estimateMaxInstances cfgDepth1) 2 0
        M4.identity 10 (7/10) ⟨[], [], 0⟩).branches.length ≤
      estimateMaxInstances cfgDepth1 ∧
     (collect rhoHalf cfgDepth1 (estimateMaxInstances cfgDepth1) 2 0
        M4.identity 10 (7/10) ⟨[], [], 0⟩).leaves.length ≤
      estimateMaxInstances cfgDepth1) :=
  ⟨(claim_budget_bound rhoHalf cfgDepth1).1,
   (claim_budget_bound rhoHalf cfgDepth1).2 2 0 M4.identity 10 (7/10)
     ⟨[], [], 0⟩ (Nat.zero_le _) (Nat.zero_le _)⟩

unseal Rat.mul Rat.inv Rat.add Rat.sub in
/-- C2 counterexample.  The claim asserts the depth-1 example configuration
yields exactly 3 branch transforms and 4 leaf transforms; on the code a
terminal call emits no branch segment, so the run yields 1 branch transform
(the root) and 4 leaf transforms — the claimed conjunction is false at the
pinned random source. -/
theorem claim_depth1_example_cex :
    ¬ ((generateTreeMatrices rhoHalf (some cfgDepth1)).1.length = 3 ∧
       (generateTreeMatrices rhoHalf (some cfgDepth1)).2.length = 4) := by
  decide

unseal Rat.mul Rat.inv Rat.add Rat.sub in
/-- C2 amended.  For the depth-1 example configuration and any random
draws, `generateTreeMatrices` returns exactly 1 branch transform (the root
at level 0; the level-1 children are terminal and emit no branch segment)
and exactly 4 leaf transforms (2 children × 2 leaves each). -/
theorem claim_depth1_example_amended : ∀ rho : ℕ → ℚ,
    (generateTreeMatrices rho (some cfgDepth1)).1.length = 1 ∧
    (generateTreeMatrices rho (some cfgDepth1)).2.length = 4 :=
  fun _ => ⟨rfl, rfl⟩

unseal Rat.mul Rat.inv Rat.add Rat.sub in
/-- C3 counterexample.  With `maxDepth` present and equal to `0`, the
source's `config.maxDepth || 5` treats the falsy `0` as absent and uses
depth `5`, so the estimator does not return the claimed
`ceil((Σ_{i=0..0} 2^i)·2.25) = 3` (it returns 142). -/
theorem claim_estimator_formula_cex :
    estimateMaxInstances cfgZeroDepth ≠ specEstimate 0 2 := by
  decide

/-- C3 amended.  For `maxDepth` either absent (default 5) or present with an
integer value ≥ 1, and `numBranches` either absent (default 2) or present
with an integer value ≥ 1, the estimator returns exactly
`ceil((Σ_{i=0..maxDepth} numBranches^i)·1.5·1.5)`.  (The original claim
also allowed a present `maxDepth = 0`, where JS `||` defaulting makes it
fail.) -/
theorem claim_estimator_formula_amended (cfg : Config) (d b : ℕ)
    (hd : cfg.maxDepth = some d ∧ 1 ≤ d ∨ cfg.maxDepth = none ∧ d = 5)
    (hb : cfg.numBranches = some b ∧ 1 ≤ b ∨ cfg.numBranches = none ∧ b = 2) :
    estimateMaxInstances cfg = specEstimate d b := by
  have hdepth : orDefault cfg.maxDepth 5 = d := by
    rcases hd with ⟨h, h1⟩ | ⟨h, h1⟩
    · rw [h]; simp only [orDefault]; rw [if_neg (by omega)]
    · rw [h, h1]; rfl
  have hbranches : orDefault cfg.numBranches 2 = b := by
    rcases hb with ⟨h, h1⟩ | ⟨h, h1⟩
    · rw [h]; simp only [orDefault]; rw [if_neg (by omega)]
    · rw [h, h1]; rfl
  simp only [estimateMaxInstances, specEstimate, hdepth, hbranches,
    foldl_add_pow, zero_add]
  push_cast
  ring_nf

/-- C3 witness: the amended formula at the depth-1 example configuration. -/
theorem claim_estimator_formula_witness :
    estimateMaxInstances cfgDepth1 = specEstimate 1 2 :=
  claim_estimator_formula_amended cfgDepth1 1 2 (Or.inl ⟨rfl, by decide⟩)
    (Or.inl ⟨rfl, by decide⟩)

unseal Rat.mul Rat.inv Rat.add Rat.sub in
/-- C4 counterexample.  `maxDepth = 0 ≤ 1 = maxDepth`, yet the estimator's
output decreases from 142 to 7, because a present `maxDepth = 0` is falsy
and is replaced by the default 5 in `config.maxDepth || 5`. -/
theorem claim_estimator_monotone_cex :
    ¬ (estimateMaxInstances cfgZeroDepth ≤ estimateMaxInstances cfgOneDepth) := by
  decide

/-- C4 amended.  For a fixed present `numBranches ≥ 1` and present integer
depths `1 ≤ d1 ≤ d2`, the estimator's output is monotone in `maxDepth`.
(The original claim also allowed `d1 = 0`, where it fails.) -/
theorem claim_estimator_monotone_amended (cfg1 cfg2 : Config) (d1 d2 b : ℕ)
    (h1 : cfg1.maxDepth = some d1) (h2 : cfg2.maxDepth = some d2)
    (hd1 : 1 ≤ d1) (hd : d1 ≤ d2)
    (hb1 : cfg1.numBranches = some b) (hb2 : cfg2.numBranches = some b)
    (hb : 1 ≤ b) :
    estimateMaxInstances cfg1 ≤ estimateMaxInstances cfg2 := by
  have e1 : orDefault (some d1) 5 = d1 := by
    simp only [orDefault]; rw [if_neg (by omega)]
  have e2 : orDefault (some d2) 5 = d2 := by
    simp only [orDefault]; rw [if_neg (by omega)]
  have e3 : orDefault (some b) 2 = b := by
    simp only [orDefault]; rw [if_neg (by omega)]
  simp only [estimateMaxInstances, h1, h2, hb1, hb2, e1, e2, e3,
    foldl_add_pow, zero_add]
  apply Int.toNat_le_toNat
  apply Int.ceil_le_ceil
  have hcount : (∑ i ∈ Finset.range (d1 + 1), b ^ i) ≤
      ∑ i ∈ Finset.range (d2 + 1), b ^ i :=
    Finset.sum_le_sum_of_subset (Finset.range_subset.mpr (by omega))
  have hq : ((∑ i ∈ Finset.range (d1 + 1), b ^ i : ℕ) : ℚ) ≤
      ((∑ i ∈ Finset.range (d2 + 1), b ^ i : ℕ) : ℚ) := by
    exact_mod_cast hcount
  have h32 : (0 : ℚ) ≤ 3/2 := by norm_num
  exact mul_le_mul_of_nonneg_right
    (mul_le_mul_of_nonneg_right hq h32) h32

/-- C4 witness: monotonicity between depths 1 and 2 at `numBranches = 2`. -/
theorem claim_estimator_monotone_witness :
    estimateMaxInstances cfgOneDepth ≤ estimateMaxInstances cfgTwoDepth :=
  claim_estimator_monotone_amended cfgOneDepth cfgTwoDepth 1 2 2 rfl rfl
    (by decide) (by decide) rfl rfl (by decide)

/-- C5.  For every configuration with `maxDepth ≥ 1` (after `??` defaulting)
and every random stream, every leaf record of the instrumented run is
emitted by a call at level ≥ 1 — the level-0 root segment never emits
leaves — and the instrumented leaf matrices project exactly onto the leaf
output of `generateTreeMatrices`. -/
theorem claim_root_no_leaves (rho : ℕ → ℚ) (cfg : Config)
    (hd : 1 ≤ cfg.maxDepth.getD 5) :
    (∀ r ∈ (generateTreeL rho cfg).leaves, 1 ≤ r.level) ∧
    (generateTreeL rho cfg).leaves.map LRec.m =
      (generateTreeMatrices rho (some cfg)).2 := by
  constructor
  · exact collectL_inv rho cfg (estimateMaxInstances cfg)
      (fun br lv => ∀ r ∈ lv, 1 ≤ r.level)
      (by
        intro level m1 m2 br lv h hlt hpos r hr
        rcases List.mem_append.mp hr with hr | hr
        · exact h r hr
        · have hr2 : r = ⟨level, m1⟩ ∨ r = ⟨level, m2⟩ := by simpa using hr
          rcases hr2 with rfl | rfl <;> exact hpos)
      (by intro level len rad m br lv h hbr hlv hle hgt hge; exact h)
      (cfg.maxDepth.getD 5 + 1) 0 M4.identity (cfg.initialLength.getD 10)
      (cfg.initialRadius.getD (cfg.initialLength.getD 10 / 15)) ⟨[], [], 0⟩
      (by intro r hr; cases hr)
  · rw [generateTreeMatrices_eq_proj]

/-- C5 witness: the hypothesis and the projection conjunct at the depth-1
example configuration with the pinned random source. -/
theorem claim_root_no_leaves_witness :
    1 ≤ cfgDepth1.maxDepth.getD 5 ∧
    (generateTreeL rhoHalf cfgDepth1).leaves.map LRec.m =
      (generateTreeMatrices rhoHalf (some cfgDepth1)).2 :=
  ⟨by decide, (claim_root_no_leaves rhoHalf cfgDepth1 (by decide)).2⟩

/-- C6.  For every configuration and random stream, every branch record of
the instrumented run was emitted by a call with `level < maxDepth`,
`length > 0.01` and `radius ≥ minRadius` (the terminal predicate is checked
before any emission), and the instrumented branch matrices project exactly
onto the branch output of `generateTreeMatrices`. -/
theorem claim_branch_emission_guards (rho : ℕ → ℚ) (cfg : Config) :
    (∀ r ∈ (generateTreeL rho cfg).branches,
        r.level < cfg.maxDepth.getD 5 ∧ (1/100 : ℚ) < r.len ∧
        cfg.minRadius.getD (1/10) ≤ r.rad) ∧
    (generateTreeL rho cfg).branches.map BRec.m =
      (generateTreeMatrices rho (some cfg)).1 := by
  constructor
  · exact collectL_inv rho cfg (estimateMaxInstances cfg)
      (fun br lv => ∀ r ∈ br,
        r.level < cfg.maxDepth.getD 5 ∧ (1/100 : ℚ) < r.len ∧
        cfg.minRadius.getD (1/10) ≤ r.rad)
      (by intro level m1 m2 br lv h hlt hpos; exact h)
      (by
        intro level len rad m br lv h hbr hlv hle hgt hge r hr
        rcases List.mem_append.mp hr with hr | hr
        · exact h r hr
        · have hr2 : r = ⟨level, len, rad, m⟩ := by simpa using hr
          subst hr2
          exact ⟨hle, hgt, hge⟩)
      (cfg.maxDepth.getD 5 + 1) 0 M4.identity (cfg.initialLength.getD 10)
      (cfg.initialRadius.getD (cfg.initialLength.getD 10 / 15)) ⟨[], [], 0⟩
      (by intro r hr; cases hr)
  · rw [generateTreeMatrices_eq_proj]

unseal Rat.mul Rat.inv Rat.add Rat.sub in
/-- C6 witness: the guards hold for the concrete root branch record of the
depth-1 example run. -/
theorem claim_branch_guards_witness :
    brecRoot.level < cfgDepth1.maxDepth.getD 5 ∧
    (1/100 : ℚ) < brecRoot.len ∧
    cfgDepth1.minRadius.getD (1/10) ≤ brecRoot.rad :=
  (claim_branch_emission_guards rhoHalf cfgDepth1).1 brecRoot (by decide)

/-- C7.  A missing (`null`) configuration makes `generateTreeMatrices`
return two empty sequences; in the embedding the function is total, so it
returns normally on every input rather than propagating an error. -/
theorem claim_null_config_soft_fail : ∀ rho : ℕ → ℚ,
    generateTreeMatrices rho none = ([], []) :=
  fun _ => rfl

/-- C8.  The recursion terminates with stack depth bounded by `maxDepth`:
each recursive call increments `level` by exactly 1 and a call with
`level ≥ maxDepth` does not recurse, so the result is independent of the
fuel as soon as the fuel exceeds `maxDepth - level`; `generateTreeMatrices`
runs the recursion with fuel `maxDepth + 1`. -/
theorem claim_recursion_depth_bounded (rho : ℕ → ℚ) (config : Config)
    (est : ℕ) (f level : ℕ) (pm : M4) (len rad : ℚ) (s : St)
    (hf : config.maxDepth.getD 5 - level < f) :
    collect rho config est f level pm len rad s =
      collect rho config est (config.maxDepth.getD 5 - level + 1) level pm len
        rad s :=
  collect_fuel_stable_aux rho config est f _ level pm len rad s hf (by omega)

/-- C8 witness: fuel 5 and the canonical fuel 2 agree for the depth-1
example configuration from level 0. -/
theorem claim_recursion_depth_bounded_witness :
    collect rhoHalf cfgDepth1 7 5 0 M4.identity 10 (7/10) ⟨[], [], 0⟩ =
      collect rhoHalf cfgDepth1 7 2 0 M4.identity 10 (7/10) ⟨[], [], 0⟩ :=
  claim_recursion_depth_bounded rhoHalf cfgDepth1 7 5 0 M4.identity 10 (7/10)
    ⟨[], [], 0⟩ (by decide)

/-- C9.  With the random source modelled as an explicit input stream,
`generateTreeMatrices` is deterministic: two runs given pointwise identical
streams of draws produce identical branch transform sequences. -/
theorem claim_deterministic_given_stream (config : Option Config)
    (rho1 rho2 : ℕ → ℚ) (h : ∀ n, rho1 n = rho2 n) :
    (generateTreeMatrices rho1 config).1 =
      (generateTreeMatrices rho2 config).1 := by
  have he : rho1 = rho2 := funext h
  rw [he]

/-- C9 witness: two runs on the pinned all-0.5 source agree. -/
theorem claim_deterministic_given_stream_witness :
    (generateTreeMatrices rhoHalf (some cfgDepth1)).1 =
      (generateTreeMatrices rhoHalf (some cfgDepth1)).1 :=
  claim_deterministic_given_stream (some cfgDepth1) rhoHalf rhoHalf
    (fun _ => rfl)

/-- C10.  For every configuration and every random stream, the leaf output
of `generateTreeMatrices` has even length: leaves are only ever appended in
pairs (base and tip) behind a single capacity check. -/
theorem claim_leaf_count_even (rho : ℕ → ℚ) (cfg : Config) :
    Even (generateTreeMatrices rho (some cfg)).2.length := by
  rw [generateTreeMatrices_eq_proj]
  simp only [List.length_map]
  exact collectL_inv rho cfg (estimateMaxInstances cfg)
    (fun br lv => Even lv.length)
    (by
      intro level m1 m2 br lv h hlt hpos
      obtain ⟨k, hk⟩ := h
      refine ⟨k + 1, ?_⟩
      simp only [List.length_append, List.length_cons, List.length_nil]
      omega)
    (by intro level len rad m br lv h hbr hlv hle hgt hge; exact h)
    (cfg.maxDepth.getD 5 + 1) 0 M4.identity (cfg.initialLength.getD 10)
    (cfg.initialRadius.getD (cfg.initialLength.getD 10 / 15)) ⟨[], [], 0⟩
    ⟨0, rfl⟩

end TreeGen
